import Mathlib

/-!
Verification of the food-resolution and unit-normalization core of the Cal
calorie tracker (`src/main.ts`).  JavaScript numbers are modelled by exact
rationals (`ℚ`); `Math.round` is floor of `x + 1/2`, which is the JS
semantics for all reals.  Optional/nullable fields are modelled by `Option`.
-/

namespace Cal

/-- JS `Math.round`: floor of `x + 1/2` (rounds half toward +∞).
Implemented with `Rat.floor` so that it evaluates by kernel reduction. -/
def jsRound (x : ℚ) : ℤ := (x + 1/2).floor

/-- The `jsRound` is the mathematical floor of `x + 1/2`. -/
theorem jsRound_eq_floor (x : ℚ) : jsRound x = ⌊x + 1/2⌋ := by
  unfold jsRound
  rw [Rat.floor_def, Rat.floor_def']

/-- The `roundTo2` from `main.ts`: `Math.round(num * 100) / 100`. -/
def roundTo2 (num : ℚ) : ℚ := (jsRound (num * 100) : ℚ) / 100

/-- The `roundTo1` from `main.ts`: `Math.round(num * 10) / 10`. -/
def roundTo1 (num : ℚ) : ℚ := (jsRound (num * 10) : ℚ) / 10

/-- The `PER_100G_UNIT` sentinel from `main.ts`. -/
def PER_100G_UNIT : String := "per100g"

/-- Numeric value of a decimal digit character (`'0'` ↦ 0, …, `'9'` ↦ 9). -/
def charVal (c : Char) : ℕ := c.toNat - 48

/-- Value of a big-endian list of decimal digit characters, as JS `Number`
computes the integer part of a decimal literal. -/
def parseNatChars (l : List Char) : ℕ := l.foldl (fun a c => 10 * a + charVal c) 0

/-- Little-endian decimal digits of `n`, with explicit fuel so that the
definition is structurally recursive and kernel-reducible. -/
def natDigitsAux : ℕ → ℕ → List ℕ
  | 0, _ => []
  | _ + 1, 0 => []
  | fuel + 1, n + 1 => ((n + 1) % 10) :: natDigitsAux fuel ((n + 1) / 10)

/-- Decimal digit characters of a natural number, as JS renders integers. -/
def natDecChars (q : ℕ) : List Char :=
  if q = 0 then ['0'] else ((natDigitsAux q q).reverse.map Nat.digitChar)

/-! JS string primitives

`String.prototype.trim` and `.toLowerCase` are modelled over `List Char`
(ASCII-faithful, which covers every string this code compares against). -/

/-- JS `String.prototype.trim`: strip whitespace from both ends. -/
def trimChars (l : List Char) : List Char :=
  ((l.dropWhile Char.isWhitespace).reverse.dropWhile Char.isWhitespace).reverse

/-- JS `String.prototype.toLowerCase` (ASCII). -/
def lowerChars (l : List Char) : List Char := l.map Char.toLower

/-- The `unit?.trim().toLowerCase()` applied to a string. -/
def normChars (s : String) : List Char := lowerChars (trimChars s.toList)

/-! Numeric Normalizer (`formatNumberSmart`, `parseDecimal2`) -/

/-- The `(n/100).toFixed(2)` followed by `.replace(/\.?0+$/, '')`, for `n : ℕ`:
two fixed decimals are rendered and trailing zeros (with the dot, when the
whole fraction is zero) are trimmed. -/
def formatHundredths (n : ℕ) : List Char :=
  let q := n / 100
  let r := n % 100
  if r = 0 then natDecChars q
  else if r % 10 = 0 then natDecChars q ++ ['.', Nat.digitChar (r / 10)]
  else natDecChars q ++ ['.', Nat.digitChar (r / 10), Nat.digitChar (r % 10)]

/-- The `formatNumberSmart` from `main.ts`: round to 2 decimals, render with
`toFixed(2)`, trim trailing zeros. -/
def formatNumberSmart (num : ℚ) : String :=
  let n := jsRound (num * 100)
  if n < 0 then String.mk ('-' :: formatHundredths n.natAbs)
  else String.mk (formatHundredths n.toNat)

/-- The `raw.replace(/[^0-9.]/g, '')`. -/
def sanitizeDecimal (raw : String) : List Char :=
  raw.toList.filter (fun c => c.isDigit || c == '.')

/-- Value of JS `Number("<int>.<frac>")` for decimal digit lists. -/
def decCharsToRat (ip : List Char) (fp : List Char) : ℚ :=
  (parseNatChars ip : ℚ) + (parseNatChars fp : ℚ) / (10 ^ fp.length : ℚ)

/-- The `parsed` value inside `parseDecimal2`: sanitize to digits/dots,
keep the part before the first dot as the whole part (defaulting to
`"0"`), concatenate everything after it as the fraction, truncate the
fraction to 2 digits, and read the decimal number. -/
def parseDecimalRaw (raw : String) : ℚ :=
  let sanitized := sanitizeDecimal raw
  let wholeRaw := sanitized.takeWhile (fun c => c != '.')
  let whole := if wholeRaw = [] then ['0'] else wholeRaw
  let decimals := ((sanitized.dropWhile (fun c => c != '.')).drop 1).filter Char.isDigit
  if decimals = [] then (parseNatChars whole : ℚ)
  else decCharsToRat whole (decimals.take 2)

/-- The `parseDecimal2` from `main.ts`: parse, round to 2 decimals and clamp
below by `min`.  (The JS `Number.isFinite` guard never fires in this
exact-rational model.) -/
def parseDecimal2 (raw : String) (min : ℚ) : ℚ :=
  max min ((jsRound (parseDecimalRaw raw * 100) : ℚ) / 100)

/-! Serving Anchor Resolver -/

/-- The two units a serving anchor may carry. -/
inductive MassUnit where
  | g
  | ml
deriving DecidableEq

/-- The unit string stored on anchors and drafts. -/
def MassUnit.str : MassUnit → String
  | .g => "g"
  | .ml => "ml"

/-- The `ServingAnchor` from `main.ts`. -/
structure ServingAnchor where
  amount : ℚ
  unit : MassUnit
  label : String
deriving DecidableEq

/-- The `isPer100gUnit`: `unit?.trim().toLowerCase() === PER_100G_UNIT`. -/
def isPer100gUnit (unit : Option String) : Bool :=
  match unit with
  | none => false
  | some u => normChars u == PER_100G_UNIT.toList

/-- The `normalizeServingUnit` from `main.ts`: a falsy (empty) unit and the
per-100g sentinel map to `none`; grams and milliliter spellings map to their
unit; anything else to `none`. -/
def normalizeServingUnit (unit : Option String) : Option MassUnit :=
  match unit with
  | none => none
  | some u =>
    if u == "" then none
    else
      let normalized := normChars u
      if normalized == PER_100G_UNIT.toList then none
      else if normalized == "g".toList || normalized == "gram".toList
          || normalized == "grams".toList then some .g
      else if normalized == "ml".toList || normalized == "milliliter".toList
          || normalized == "milliliters".toList || normalized == "millilitre".toList
          || normalized == "millilitres".toList then some .ml
      else none

/-- The `buildServingAnchor` from `main.ts`. -/
def buildServingAnchor (amount : Option ℚ) (unit : Option String) : Option ServingAnchor :=
  match amount with
  | none => none
  | some a =>
    if a ≤ 0 then none
    else
      match normalizeServingUnit unit with
      | none => none
      | some u => some ⟨a, u, formatNumberSmart a ++ " " ++ u.str⟩

/-! The regex `/(\d+(?:[.,]\d+)?)\s*(g|ml)\b/i` of `parseServingSize`

The pattern is embedded as an explicit leftmost-match scanner with the
backtracking behaviour of the JS engine: the digit runs are maximal (no
following pattern element can consume a digit), the optional comma/dot
fraction is tried greedily and dropped on failure, and `\b` requires the
character after the unit to be a non-word character or the end. -/

/-- JS `\w` (`[A-Za-z0-9_]`). -/
def isWordChar (c : Char) : Bool := c.isAlphanum || c == '_'

/-- The `\b` after the unit letters: next char absent or not a word char. -/
def boundaryOk : List Char → Bool
  | [] => true
  | c :: _ => !isWordChar c

/-- The `(g|ml)\b` case-insensitively at the head of the list. -/
def matchUnit : List Char → Option MassUnit
  | [] => none
  | c :: rest =>
    if c == 'g' || c == 'G' then
      if boundaryOk rest then some .g else none
    else if c == 'm' || c == 'M' then
      match rest with
      | d :: rest2 =>
        if (d == 'l' || d == 'L') && boundaryOk rest2 then some .ml else none
      | [] => none
    else none

/-- The `\s*(g|ml)\b` at the head of the list. -/
def matchUnitAfterSpaces (l : List Char) : Option MassUnit :=
  matchUnit (l.dropWhile Char.isWhitespace)

/-- Try the whole pattern at the current position.  Returns the integer
digits, the optional fraction digits, and the unit. -/
def matchAt (l : List Char) : Option (List Char × List Char × MassUnit) :=
  let d1 := l.takeWhile Char.isDigit
  if d1 = [] then none
  else
    let rest1 := l.dropWhile Char.isDigit
    let withFrac : Option (List Char × List Char) :=
      match rest1 with
      | c :: r =>
        if c == '.' || c == ',' then
          let d2 := r.takeWhile Char.isDigit
          if d2 = [] then none else some (d2, r.dropWhile Char.isDigit)
        else none
      | [] => none
    match withFrac with
    | some (d2, rest2) =>
      match matchUnitAfterSpaces rest2 with
      | some u => some (d1, d2, u)
      | none =>
        match matchUnitAfterSpaces rest1 with
        | some u => some (d1, [], u)
        | none => none
    | none =>
      match matchUnitAfterSpaces rest1 with
      | some u => some (d1, [], u)
      | none => none

/-- Leftmost match of the serving-size pattern. -/
def findServingMatch : List Char → Option (List Char × List Char × MassUnit)
  | [] => none
  | c :: rest =>
    match matchAt (c :: rest) with
    | some m => some m
    | none => findServingMatch rest

/-- The `parseServingSize` from `main.ts`: first regex match, comma mapped to a
decimal point, amount must be positive. -/
def parseServingSize (value : String) : Option ServingAnchor :=
  match findServingMatch value.toList with
  | none => none
  | some (ip, fp, u) =>
    let amount := decCharsToRat ip fp
    if amount ≤ 0 then none
    else some ⟨amount, u, formatNumberSmart amount ++ " " ++ u.str⟩

/-- The option record taken by `resolveServingAnchor`. -/
structure ServingFields where
  servingSizeGrams : Option ℚ := none
  servingSize : Option ℚ := none
  servingSizeUnit : Option String := none
  servingLabel : Option String := none
deriving DecidableEq

/-- The `resolveServingAnchor` from `main.ts`. -/
def resolveServingAnchor (options : ServingFields) : Option ServingAnchor :=
  if isPer100gUnit options.servingSizeUnit then none
  else
    let fallback :=
      match buildServingAnchor options.servingSize options.servingSizeUnit with
      | some a => some a
      | none =>
        match options.servingLabel with
        | some s => if s == "" then none else parseServingSize s
        | none => none
    match options.servingSizeGrams with
    | some g =>
      if 0 < g then some ⟨g, .g, formatNumberSmart g ++ " g"⟩ else fallback
    | none => fallback

/-- The serving-related fields of a `Food` record. -/
structure FoodServing where
  servingSizeGrams : Option ℚ := none
  servingSize : Option ℚ := none
  servingSizeUnit : Option String := none
deriving DecidableEq

/-- The `ServingFields` a `Food` passes to `resolveServingAnchor` (a `Food`
has no `servingLabel`). -/
def FoodServing.fields (f : FoodServing) : ServingFields :=
  { servingSizeGrams := f.servingSizeGrams
    servingSize := f.servingSize
    servingSizeUnit := f.servingSizeUnit }

/-- The `hasTrueServing` from `main.ts`. -/
def hasTrueServing (food : Option FoodServing) : Bool :=
  match food with
  | none => false
  | some f =>
    if isPer100gUnit f.servingSizeUnit then false
    else (resolveServingAnchor f.fields).isSome

/-- The `getServingSizeGramsValue` from `main.ts`. -/
def getServingSizeGramsValue (food : Option FoodServing) : Option ℚ :=
  match food with
  | none => none
  | some f =>
    if isPer100gUnit f.servingSizeUnit then some 100
    else
      let step3 : Option ℚ :=
        match f.servingSizeUnit, f.servingSize with
        | some u, some s =>
          if lowerChars u.toList == "g".toList && 0 < s then some s else none
        | _, _ => none
      match f.servingSizeGrams with
      | some g => if 0 < g then some g else step3
      | none => step3

/-! Source Draft Builder: USDA search results -/

/-- The fields of a `UsdaFoodResult` that `createUsdaDraftFromResult`
reads.  Macro values are per 100 g and may be `null`. -/
structure UsdaFoodResult where
  description : String
  calories : Option ℚ := none
  carbs : Option ℚ := none
  protein : Option ℚ := none
  servingSize : Option ℚ := none
  servingSizeUnit : Option String := none
deriving DecidableEq

/-- The `FoodDraft` from `main.ts`. -/
structure FoodDraft where
  name : String
  caloriesPerServing : ℚ
  carbsPerServing : ℚ
  proteinPerServing : ℚ
  servingLabel : Option String := none
  servingSize : Option ℚ := none
  servingSizeUnit : Option String := none
  servingSizeGrams : Option ℚ := none
deriving DecidableEq

/-- The anchor `createUsdaDraftFromResult` resolves: only `servingSize` and
`servingSizeUnit` are passed. -/
def usdaAnchor (result : UsdaFoodResult) : Option ServingAnchor :=
  resolveServingAnchor
    { servingSize := result.servingSize, servingSizeUnit := result.servingSizeUnit }

/-- The `servingFactor` inside `createUsdaDraftFromResult`. -/
def usdaFactor (result : UsdaFoodResult) : ℚ :=
  match usdaAnchor result with
  | some a => a.amount / 100
  | none => 1

/-- The `createUsdaDraftFromResult` from `main.ts`. -/
def createUsdaDraftFromResult (result : UsdaFoodResult) : FoodDraft :=
  let anchor := usdaAnchor result
  let servingFactor := usdaFactor result
  { name := result.description
    caloriesPerServing :=
      match result.calories with
      | none => 0
      | some c => (jsRound (c * servingFactor) : ℚ)
    carbsPerServing :=
      match result.carbs with
      | none => 0
      | some c => roundTo1 (c * servingFactor)
    proteinPerServing :=
      match result.protein with
      | none => 0
      | some p => roundTo1 (p * servingFactor)
    servingLabel := anchor.map (·.label)
    servingSize := some (match anchor with | some a => a.amount | none => 100)
    servingSizeUnit := some (match anchor with | some _ => "g" | none => PER_100G_UNIT)
    servingSizeGrams := some (match anchor with | some a => a.amount | none => 100) }

/-! Source Draft Builder: Open Food Facts -/

/-- The nutriment fields `lookupOpenFoodFacts` reads (values already passed
through `asNumber`, so a missing or non-numeric field is `none`). -/
structure OffNutriments where
  energyKcalServing : Option ℚ := none
  energyKjServing : Option ℚ := none
  energyKcal100g : Option ℚ := none
  energyKj100g : Option ℚ := none
  proteinsServing : Option ℚ := none
  proteins100g : Option ℚ := none
  carbohydratesServing : Option ℚ := none
  carbohydrates100g : Option ℚ := none
deriving DecidableEq

/-- The product fields `lookupOpenFoodFacts` and `resolveOffServing` read. -/
structure OffProduct where
  serving_size : Option String := none
  serving_quantity : Option ℚ := none
  serving_unit : Option String := none
  nutriments : OffNutriments := {}
  product_name_en : Option String := none
  product_name : Option String := none
  generic_name_en : Option String := none
  generic_name : Option String := none
deriving DecidableEq

/-- The decoded lookup response: `status` and the optional product. -/
structure OffData where
  status : Option ℚ := none
  product : Option OffProduct := none
deriving DecidableEq

/-- The `serving_quantity`/`serving_unit` arm of `resolveOffServing`:
`serving_quantity` must be truthy (present, nonzero), the lowercased unit
must be exactly `"g"` or `"ml"`, and the amount positive. -/
def resolveOffServingQty (product : OffProduct) : Option ServingAnchor :=
  match product.serving_quantity, product.serving_unit with
  | some q, some u =>
    if q == 0 then none
    else
      let unit := lowerChars u.toList
      if unit == "g".toList || unit == "ml".toList then
        if 0 < q then
          let mu : MassUnit := if unit == "ml".toList then .ml else .g
          some ⟨q, mu, formatNumberSmart q ++ " " ++ mu.str⟩
        else none
      else none
  | _, _ => none

/-- The `resolveOffServing` from `main.ts`: parse `serving_size` free text first,
then fall back to `serving_quantity` + `serving_unit`. -/
def resolveOffServing (product : OffProduct) : Option ServingAnchor :=
  match product.serving_size with
  | some s =>
    match parseServingSize s with
    | some a => some a
    | none => resolveOffServingQty product
  | none => resolveOffServingQty product

/-- The `kjToKcal` inside `lookupOpenFoodFacts`: divide by 4.184. -/
def kjToKcal : Option ℚ → Option ℚ
  | none => none
  | some v => some (v / (4184 / 1000))

/-- The `calories` determination inside `lookupOpenFoodFacts`:
kcal-per-serving, else kJ-per-serving converted, else the 100g-basis energy
scaled by the serving factor. -/
def offCalories (n : OffNutriments) (servingFactor : ℚ) : Option ℚ :=
  match n.energyKcalServing.orElse (fun _ => kjToKcal n.energyKjServing) with
  | some e => some e
  | none =>
    match n.energyKcal100g.orElse (fun _ => kjToKcal n.energyKj100g) with
    | some e => some (e * servingFactor)
    | none => none

/-- The `protein` determination inside `lookupOpenFoodFacts`. -/
def offProtein (n : OffNutriments) (servingFactor : ℚ) : Option ℚ :=
  match n.proteinsServing with
  | some p => some p
  | none =>
    match n.proteins100g with
    | some p => some (p * servingFactor)
    | none => none

/-- The `carbs` determination inside `lookupOpenFoodFacts`. -/
def offCarbs (n : OffNutriments) (servingFactor : ℚ) : Option ℚ :=
  match n.carbohydratesServing with
  | some c => some c
  | none =>
    match n.carbohydrates100g with
    | some c => some (c * servingFactor)
    | none => none

/-- The `product_name_en || product_name || generic_name_en || generic_name
|| 'Food item'` chain (JS `||`: an empty string is falsy). -/
def offProductName (p : OffProduct) : String :=
  let pick : Option String → String → String := fun o fb =>
    match o with
    | some s => if s == "" then fb else s
    | none => fb
  pick p.product_name_en (pick p.product_name
    (pick p.generic_name_en (pick p.generic_name "Food item")))

/-- The draft construction of `lookupOpenFoodFacts` for a decoded product:
`none` when no serving can be resolved or any macro is undetermined. -/
def offDraftFromProduct (p : OffProduct) : Option FoodDraft :=
  match resolveOffServing p with
  | none => none
  | some serving =>
    let servingFactor := serving.amount / 100
    match offCalories p.nutriments servingFactor,
        offProtein p.nutriments servingFactor,
        offCarbs p.nutriments servingFactor with
    | some calories, some protein, some carbs =>
      some
        { name := offProductName p
          caloriesPerServing := max 0 (jsRound calories : ℚ)
          carbsPerServing := roundTo1 (max 0 carbs)
          proteinPerServing := roundTo1 (max 0 protein)
          servingLabel := some serving.label
          servingSize := some serving.amount
          servingSizeUnit := some serving.unit.str
          servingSizeGrams :=
            if serving.unit = MassUnit.g then some serving.amount else none }
    | _, _, _ => none

/-- The `lookupOpenFoodFacts` after a successful HTTP response: the decoded
JSON body is `data`; a missing body, `status !== 1` or a missing product
yield `none` (not-found), as does a product without a usable draft. -/
def lookupOpenFoodFacts (data : Option OffData) : Option FoodDraft :=
  match data with
  | none => none
  | some d =>
    if d.status == some 1 then
      match d.product with
      | none => none
      | some p => offDraftFromProduct p
    else none

/-! Entry Quantity Resolver and totals -/

/-- The persisted fields of an `Entry` used by the totals computations. -/
structure Entry where
  foodName : String
  servings : ℚ
  caloriesPerServing : ℚ
  carbsPerServing : ℚ
  proteinPerServing : ℚ
deriving DecidableEq

/-- The macro-totals triple. -/
structure MacroTotals where
  calories : ℚ
  carbs : ℚ
  protein : ℚ
deriving DecidableEq

/-- The `sumEntries` from `main.ts`: a fold accumulating
`servings × perServing` for each macro. -/
def sumEntries (entries : List Entry) : MacroTotals :=
  entries.foldl
    (fun acc entry =>
      { calories := acc.calories + entry.servings * entry.caloriesPerServing
        carbs := acc.carbs + entry.servings * entry.carbsPerServing
        protein := acc.protein + entry.servings * entry.proteinPerServing })
    ⟨0, 0, 0⟩

/-- The per-serving snapshot the entry form carries. -/
structure PerServing where
  calories : ℚ
  carbs : ℚ
  protein : ℚ
deriving DecidableEq

/-- The `updateTotals` from `renderEntryForm`: the displayed entry totals. -/
def updateTotals (servings : ℚ) (perServing : PerServing) : MacroTotals :=
  { calories := servings * perServing.calories
    carbs := servings * perServing.carbs
    protein := servings * perServing.protein }

/-- JS truthiness of a nullable number: present and nonzero. -/
def jsTruthy : Option ℚ → Bool
  | none => false
  | some v => v != 0

/-- Mode selection in `updateEntryInputMode`:
`Boolean(food && !hasTrueServing(food) && servingSizeGrams)`. -/
def entryUsesGramsInput (food : Option FoodServing) : Bool :=
  food.isSome && !hasTrueServing food && jsTruthy (getServingSizeGramsValue food)

/-- The `servings` assignment of the grams branch of
`updateEntryInputMode`: `servings = gramsValue ? gramsValue /
servingSizeGrams : 0` guarded by `if (servingSizeGrams)`. -/
def deriveServingsFromGrams (grams servingSizeGrams : Option ℚ) : ℚ :=
  if jsTruthy servingSizeGrams then
    if jsTruthy grams then grams.getD 0 / servingSizeGrams.getD 0 else 0
  else 0

/-- How `updateEntryInputMode` leaves the `servings` state variable: in
grams mode it is recomputed from the grams field, otherwise the entered
servings count is kept. -/
def deriveServings (useGramsInput : Bool) (grams servingSizeGrams : Option ℚ)
    (servings : ℚ) : ℚ :=
  if useGramsInput then deriveServingsFromGrams grams servingSizeGrams else servings

/-- The `servings` value the entry-form submit handler persists: in grams
mode the submission is rejected (`none`) without a truthy conversion
constant or a positive grams value, else `servings = grams /
servingSizeGrams`; the payload stores `roundTo2(servings)`. -/
def entrySubmitServings (useGramsInput : Bool) (grams servingSizeGrams : Option ℚ)
    (servings : ℚ) : Option ℚ :=
  if useGramsInput then
    if !jsTruthy servingSizeGrams then none
    else if !jsTruthy grams || grams.getD 0 ≤ 0 then none
    else some (roundTo2 (grams.getD 0 / servingSizeGrams.getD 0))
  else some (roundTo2 servings)

/-- The grams value `renderEntryForm` reconstructs when editing a stored
grams-mode entry: `grams = roundTo2(servings * servingSizeGrams)` under
`useGramsInput && servingSizeGrams`. -/
def reconstructGrams (useGramsInput : Bool) (servings : ℚ)
    (servingSizeGrams : Option ℚ) : Option ℚ :=
  if useGramsInput && jsTruthy servingSizeGrams then
    some (roundTo2 (servings * servingSizeGrams.getD 0))
  else none

/-! Specification model for the serving-anchor priority order

`resolveServingAnchorSpec` restates the algorithm as the specification
words it (claim C2), to be compared with the source translation
`resolveServingAnchor`. -/

/-- Steps 3–5 of the specification: a positive `servingSize` whose unit
normalizes to grams or milliliters, else a parseable `servingLabel`, else
`null`. -/
def specLabelStep (o : ServingFields) : Option ServingAnchor :=
  match o.servingLabel with
  | some s => parseServingSize s
  | none => none

/-- Modelled from the spec: `resolveServingAnchor` as claim C2 words it,
step by step in priority order. -/
def resolveServingAnchorSpec (o : ServingFields) : Option ServingAnchor :=
  if isPer100gUnit o.servingSizeUnit then none
  else
    match o.servingSizeGrams with
    | some g =>
      if 0 < g then some ⟨g, .g, formatNumberSmart g ++ " g"⟩
      else
        match o.servingSize, normalizeServingUnit o.servingSizeUnit with
        | some a, some u =>
          if 0 < a then some ⟨a, u, formatNumberSmart a ++ " " ++ u.str⟩
          else specLabelStep o
        | _, _ => specLabelStep o
    | none =>
      match o.servingSize, normalizeServingUnit o.servingSizeUnit with
      | some a, some u =>
        if 0 < a then some ⟨a, u, formatNumberSmart a ++ " " ++ u.str⟩
        else specLabelStep o
      | _, _ => specLabelStep o

/-! Basic lemmas -/

theorem parseServingSize_empty : parseServingSize "" = none := rfl

/-- When the per-100g sentinel is set, `resolveServingAnchor` is `null`. -/
theorem resolveServingAnchor_per100g (o : ServingFields)
    (h : isPer100gUnit o.servingSizeUnit = true) : resolveServingAnchor o = none := by
  unfold resolveServingAnchor
  simp [h]

/-- C9: `hasTrueServing` agrees with `resolveServingAnchor` being non-null
on the food's serving fields. -/
theorem hasTrueServing_iff_anchor (f : FoodServing) :
    hasTrueServing (some f) = (resolveServingAnchor f.fields).isSome := by
  unfold hasTrueServing
  by_cases h : isPer100gUnit f.servingSizeUnit
  · rw [resolveServingAnchor_per100g f.fields h]
    simp [h]
  · simp [h]

/-- C2: the source `resolveServingAnchor` computes exactly the
specification's priority order `resolveServingAnchorSpec`. -/
theorem resolveServingAnchor_eq_spec (o : ServingFields) :
    resolveServingAnchor o = resolveServingAnchorSpec o := by
  obtain ⟨g, ss, su, sl⟩ := o
  unfold resolveServingAnchor resolveServingAnchorSpec specLabelStep buildServingAnchor
  by_cases hp : isPer100gUnit su
  · simp [hp]
  · have hlabel :
        (match sl with
          | some s => if s = "" then none else parseServingSize s
          | none => (none : Option ServingAnchor)) =
        (match sl with
          | some s => parseServingSize s
          | none => (none : Option ServingAnchor)) := by
      cases sl with
      | none => rfl
      | some s =>
        by_cases hs : s = ""
        · subst hs
          simp [parseServingSize_empty]
        · simp [hs]
    simp only [hp, Bool.false_eq_true, if_false]
    cases g with
    | some gv =>
      by_cases hg : 0 < gv
      · simp [hg]
      · cases ss with
        | none =>
          cases hnu : normalizeServingUnit su <;> simp [hg, hnu, hlabel]
        | some sv =>
          cases hnu : normalizeServingUnit su with
          | none => simp [hg, hnu, hlabel]
          | some u =>
            by_cases hsv : sv ≤ 0
            · simp [hg, hnu, hsv, not_lt.mpr hsv, hlabel]
            · simp [hg, hnu, hsv, lt_of_not_ge hsv, hlabel]
    | none =>
      cases ss with
      | none =>
        cases hnu : normalizeServingUnit su <;> simp [hnu, hlabel]
      | some sv =>
        cases hnu : normalizeServingUnit su with
        | none => simp [hnu, hlabel]
        | some u =>
          by_cases hsv : sv ≤ 0
          · simp [hnu, hsv, not_lt.mpr hsv, hlabel]
          · simp [hnu, hsv, lt_of_not_ge hsv, hlabel]

/-- The fold of `sumEntries`, with a general accumulator. -/
theorem sumEntries_foldl (entries : List Entry) : ∀ acc : MacroTotals,
    entries.foldl
      (fun acc entry =>
        { calories := acc.calories + entry.servings * entry.caloriesPerServing
          carbs := acc.carbs + entry.servings * entry.carbsPerServing
          protein := acc.protein + entry.servings * entry.proteinPerServing })
      acc =
      { calories := acc.calories + (entries.map fun e => e.servings * e.caloriesPerServing).sum
        carbs := acc.carbs + (entries.map fun e => e.servings * e.carbsPerServing).sum
        protein := acc.protein + (entries.map fun e => e.servings * e.proteinPerServing).sum } := by
  induction entries with
  | nil => intro acc; simp
  | cons e t ih =>
    intro acc
    simp only [List.foldl_cons, List.map_cons, List.sum_cons, ih]
    simp [add_assoc]

/-- C3: summed totals are `servings × perServing` per entry, and the
displayed totals are `servings × perServing` for the mode-derived
servings; the mode only affects the derivation. -/
theorem entry_totals_invariant (entries : List Entry) (useGramsInput : Bool)
    (grams servingSizeGrams : Option ℚ) (servingsInput : ℚ) (perServing : PerServing) :
    sumEntries entries =
      { calories := (entries.map fun e => e.servings * e.caloriesPerServing).sum
        carbs := (entries.map fun e => e.servings * e.carbsPerServing).sum
        protein := (entries.map fun e => e.servings * e.proteinPerServing).sum } ∧
    updateTotals (deriveServings useGramsInput grams servingSizeGrams servingsInput) perServing =
      { calories := deriveServings useGramsInput grams servingSizeGrams servingsInput *
          perServing.calories
        carbs := deriveServings useGramsInput grams servingSizeGrams servingsInput *
          perServing.carbs
        protein := deriveServings useGramsInput grams servingSizeGrams servingsInput *
          perServing.protein } := by
  constructor
  · have h := sumEntries_foldl entries ⟨0, 0, 0⟩
    unfold sumEntries
    simpa using h
  · rfl

/-- C5: a food whose `servingSizeUnit` is the `per100g` sentinel has no
true serving regardless of `servingSizeGrams`, the entry form selects the
grams-eaten mode, the conversion constant is 100, and the derived servings
multiplier is `grams / 100`. -/
theorem per100g_food_grams_mode (ssg ss : Option ℚ) (grams : ℚ) (hg : grams ≠ 0) :
    hasTrueServing (some ⟨ssg, ss, some "per100g"⟩) = false ∧
    getServingSizeGramsValue (some ⟨ssg, ss, some "per100g"⟩) = some 100 ∧
    entryUsesGramsInput (some ⟨ssg, ss, some "per100g"⟩) = true ∧
    deriveServingsFromGrams (some grams)
      (getServingSizeGramsValue (some ⟨ssg, ss, some "per100g"⟩)) = grams / 100 := by
  have hp : isPer100gUnit (some "per100g") = true := by decide
  have h1 : hasTrueServing (some ⟨ssg, ss, some "per100g"⟩) = false := by
    simp [hasTrueServing, hp]
  have h2 : getServingSizeGramsValue (some ⟨ssg, ss, some "per100g"⟩) = some 100 := by
    simp [getServingSizeGramsValue, hp]
  refine ⟨h1, h2, ?_, ?_⟩
  · simp [entryUsesGramsInput, h1, h2, jsTruthy]
  · rw [h2]
    simp [deriveServingsFromGrams, jsTruthy, hg]

/-- C10: the submit handler persists `roundTo2` of the servings multiplier
(in grams mode, of `grams / servingSizeGrams`), and editing a grams-mode
entry reconstructs `roundTo2(servings × servingSizeGrams)`. -/
theorem entry_submit_rounds_servings (grams ssg servingsInput : ℚ)
    (hssg : ssg ≠ 0) (hg : 0 < grams) :
    entrySubmitServings true (some grams) (some ssg) servingsInput =
      some (roundTo2 (grams / ssg)) ∧
    entrySubmitServings false (some grams) (some ssg) servingsInput =
      some (roundTo2 servingsInput) ∧
    reconstructGrams true servingsInput (some ssg) =
      some (roundTo2 (servingsInput * ssg)) := by
  have hg' : grams ≠ 0 := ne_of_gt hg
  refine ⟨?_, rfl, ?_⟩
  · simp [entrySubmitServings, jsTruthy, hssg, hg', not_le.mpr hg]
  · simp [reconstructGrams, jsTruthy, hssg]

/-- The anchor `createUsdaDraftFromResult` resolves is `none` whenever the
result's serving-size unit normalizes to neither grams nor milliliters
(only `servingSize`/`servingSizeUnit` are passed, so no other field can
produce an anchor). -/
theorem usdaAnchor_none_of_unnormalizable (result : UsdaFoodResult)
    (h : normalizeServingUnit result.servingSizeUnit = none) :
    usdaAnchor result = none := by
  unfold usdaAnchor resolveServingAnchor buildServingAnchor
  by_cases hp : isPer100gUnit result.servingSizeUnit
  · simp [hp]
  · simp only [hp, Bool.false_eq_true, if_false]
    cases result.servingSize with
    | none => simp
    | some a =>
      by_cases ha : a ≤ 0 <;> simp [h, ha]

/-- C1 (amended): a USDA result whose serving-size unit normalizes to
neither grams nor milliliters gets no serving anchor, hence the per-100g
sentinel, `servingSizeGrams = 100`, and macros scaled by factor 1. -/
theorem usda_unrecognized_unit_forces_per100g (result : UsdaFoodResult)
    (h : normalizeServingUnit result.servingSizeUnit = none) :
    usdaFactor result = 1 ∧
    (createUsdaDraftFromResult result).servingSizeUnit = some PER_100G_UNIT ∧
    (createUsdaDraftFromResult result).servingSizeGrams = some 100 ∧
    (createUsdaDraftFromResult result).caloriesPerServing =
      (match result.calories with
        | none => 0
        | some c => (jsRound c : ℚ)) ∧
    (createUsdaDraftFromResult result).carbsPerServing =
      (match result.carbs with
        | none => 0
        | some c => roundTo1 c) ∧
    (createUsdaDraftFromResult result).proteinPerServing =
      (match result.protein with
        | none => 0
        | some p => roundTo1 p) := by
  have ha := usdaAnchor_none_of_unnormalizable result h
  have hf : usdaFactor result = 1 := by
    unfold usdaFactor
    rw [ha]
  refine ⟨hf, ?_, ?_, ?_, ?_, ?_⟩
  · simp [createUsdaDraftFromResult, ha]
  · simp [createUsdaDraftFromResult, ha]
  · unfold createUsdaDraftFromResult
    cases result.calories <;> simp [hf]
  · unfold createUsdaDraftFromResult
    cases result.carbs <;> simp [hf]
  · unfold createUsdaDraftFromResult
    cases result.protein <;> simp [hf]

/-- C6: the Open Food Facts lookup yields no draft (a not-found value, not
an exception) when the product's serving size cannot be resolved, and
likewise when any of calories, protein or carbs cannot be determined from
the nutriments. -/
theorem off_lookup_not_found (d : OffData) (p : OffProduct) (hp : d.product = some p)
    (h : resolveOffServing p = none ∨
      ∃ s, resolveOffServing p = some s ∧
        (offCalories p.nutriments (s.amount / 100) = none ∨
         offProtein p.nutriments (s.amount / 100) = none ∨
         offCarbs p.nutriments (s.amount / 100) = none)) :
    lookupOpenFoodFacts (some d) = none := by
  have hdraft : offDraftFromProduct p = none := by
    unfold offDraftFromProduct
    rcases h with h | ⟨s, hs, hmac⟩
    · simp [h]
    · rw [hs]
      rcases hmac with h1 | h2 | h3
      · cases hA : offProtein p.nutriments (s.amount / 100) <;>
          cases hB : offCarbs p.nutriments (s.amount / 100) <;> simp [h1, hA, hB]
      · cases hA : offCalories p.nutriments (s.amount / 100) <;>
          cases hB : offCarbs p.nutriments (s.amount / 100) <;> simp [h2, hA, hB]
      · cases hA : offCalories p.nutriments (s.amount / 100) <;>
          cases hB : offProtein p.nutriments (s.amount / 100) <;> simp [h3, hA, hB]
  unfold lookupOpenFoodFacts
  by_cases hs : d.status == some 1 <;> simp [hs, hp, hdraft]

section ConcreteEvaluation

attribute [local semireducible] Rat.add Rat.mul Rat.sub Rat.inv Rat.ofScientific

/-- C6 witness: a product carrying only per-100g nutriments and no serving
information is rejected as not-found. -/
theorem off_lookup_not_found_witness :
    lookupOpenFoodFacts
      (some { status := some 1
              product := some { nutriments := { energyKcal100g := some 200
                                                proteins100g := some 5
                                                carbohydrates100g := some 10 } } }) = none :=
  off_lookup_not_found _ _ rfl (Or.inl (by decide))

/-- C7: a USDA result with a 45 g anchor and per-100g values 250 kcal /
30 g carbs / 5 g protein yields 113 kcal, 13.5 g carbs and 2.3 g protein
per serving (2.25 rounds up). -/
theorem usda_45g_scaling :
    usdaAnchor
        { description := "Granola", calories := some 250, carbs := some 30,
          protein := some 5, servingSize := some 45, servingSizeUnit := some "g" } =
      some ⟨45, MassUnit.g, "45 g"⟩ ∧
    (createUsdaDraftFromResult
        { description := "Granola", calories := some 250, carbs := some 30,
          protein := some 5, servingSize := some 45, servingSizeUnit := some "g" }).caloriesPerServing
      = 113 ∧
    (createUsdaDraftFromResult
        { description := "Granola", calories := some 250, carbs := some 30,
          protein := some 5, servingSize := some 45, servingSizeUnit := some "g" }).carbsPerServing
      = 13.5 ∧
    (createUsdaDraftFromResult
        { description := "Granola", calories := some 250, carbs := some 30,
          protein := some 5, servingSize := some 45, servingSizeUnit := some "g" }).proteinPerServing
      = 2.3 := by decide

/-- C1 counterexample: an `"ml"` serving unit does *not* normalize to
grams, yet the USDA draft builder accepts it as an anchor: the draft is
not on the per-100g basis and its calories are scaled by 0.5. -/
theorem usda_ml_unit_counterexample :
    normalizeServingUnit (some "ml") ≠ some MassUnit.g ∧
    (createUsdaDraftFromResult
        { description := "Juice", calories := some 100, carbs := some 10,
          protein := some 1, servingSize := some 50, servingSizeUnit := some "ml" }).servingSizeUnit
      ≠ some PER_100G_UNIT ∧
    (createUsdaDraftFromResult
        { description := "Juice", calories := some 100, carbs := some 10,
          protein := some 1, servingSize := some 50, servingSizeUnit := some "ml" }).caloriesPerServing
      = 50 := by decide

/-- C1 witness: a unit normalizing to neither grams nor milliliters
(`"oz"`) forces the per-100g basis with factor 1. -/
theorem usda_unrecognized_unit_witness :
    normalizeServingUnit (some "oz") = none ∧
    (usdaFactor
        { description := "Oats", calories := some 250, carbs := some 30,
          protein := some 5, servingSize := some 45, servingSizeUnit := some "oz" } = 1 ∧
      (createUsdaDraftFromResult
          { description := "Oats", calories := some 250, carbs := some 30,
            protein := some 5, servingSize := some 45, servingSizeUnit := some "oz" }).servingSizeUnit
        = some PER_100G_UNIT ∧
      (createUsdaDraftFromResult
          { description := "Oats", calories := some 250, carbs := some 30,
            protein := some 5, servingSize := some 45, servingSizeUnit := some "oz" }).servingSizeGrams
        = some 100 ∧
      (createUsdaDraftFromResult
          { description := "Oats", calories := some 250, carbs := some 30,
            protein := some 5, servingSize := some 45, servingSizeUnit := some "oz" }).caloriesPerServing
        = (match (some 250 : Option ℚ) with
            | none => 0
            | some c => (jsRound c : ℚ)) ∧
      (createUsdaDraftFromResult
          { description := "Oats", calories := some 250, carbs := some 30,
            protein := some 5, servingSize := some 45, servingSizeUnit := some "oz" }).carbsPerServing
        = (match (some 30 : Option ℚ) with
            | none => 0
            | some c => roundTo1 c) ∧
      (createUsdaDraftFromResult
          { description := "Oats", calories := some 250, carbs := some 30,
            protein := some 5, servingSize := some 45, servingSizeUnit := some "oz" }).proteinPerServing
        = (match (some 5 : Option ℚ) with
            | none => 0
            | some p => roundTo1 p)) :=
  ⟨by decide, usda_unrecognized_unit_forces_per100g _ (by decide)⟩

/-- C4 counterexample: `"12.999"` is truncated to two fraction digits
before parsing, so the stored value is 12.99, not 13, and it displays as
`"12.99"`. -/
theorem parseDecimal_12999_counterexample :
    parseDecimal2 "12.999" 0 ≠ 13 ∧
    formatNumberSmart (parseDecimal2 "12.999" 0) ≠ "13" := by decide

/-- C4 (amended): `"12.999"` parses to 12.99 (fraction truncated to two
digits, no rounding up) and displays as `"12.99"`. -/
theorem parseDecimal_12999_amended :
    parseDecimal2 "12.999" 0 = 1299 / 100 ∧
    formatNumberSmart (parseDecimal2 "12.999" 0) = "12.99" := by decide

/-- C5 witness at `servingSizeGrams = 45`, `grams = 50`. -/
theorem per100g_food_grams_mode_witness :
    hasTrueServing (some ⟨some 45, none, some "per100g"⟩) = false ∧
    getServingSizeGramsValue (some ⟨some 45, none, some "per100g"⟩) = some 100 ∧
    entryUsesGramsInput (some ⟨some 45, none, some "per100g"⟩) = true ∧
    deriveServingsFromGrams (some 50)
      (getServingSizeGramsValue (some ⟨some 45, none, some "per100g"⟩)) = 50 / 100 :=
  per100g_food_grams_mode (some 45) none 50 (by decide)

/-- C10 witness at `grams = 50`, `servingSizeGrams = 30`, `servings = 2`. -/
theorem entry_submit_rounds_servings_witness :
    entrySubmitServings true (some 50) (some 30) 2 = some (roundTo2 (50 / 30)) ∧
    entrySubmitServings false (some 50) (some 30) 2 = some (roundTo2 2) ∧
    reconstructGrams true 2 (some 30) = some (roundTo2 (2 * 30)) :=
  entry_submit_rounds_servings 50 30 2 (by decide) (by decide)

end ConcreteEvaluation

/-! Decimal print–parse roundtrip (for the `parseDecimal2` idempotence) -/

/-- Little-endian value of a list of decimal digits. -/
def digitsVal : List ℕ → ℕ
  | [] => 0
  | d :: t => d + 10 * digitsVal t

theorem charVal_digitChar {d : ℕ} (h : d < 10) : charVal (Nat.digitChar d) = d := by
  interval_cases d <;> rfl

theorem isDigit_digitChar {d : ℕ} (h : d < 10) : (Nat.digitChar d).isDigit = true := by
  interval_cases d <;> rfl

theorem isDigit_ne_dot {c : Char} (h : c.isDigit = true) : (c != '.') = true := by
  by_cases hc : c = '.'
  · subst hc
    exact absurd h (by decide)
  · simpa [bne_iff_ne] using hc

theorem natDigitsAux_lt : ∀ fuel q : ℕ, ∀ d ∈ natDigitsAux fuel q, d < 10 := by
  intro fuel
  induction fuel with
  | zero => intro q d hd; simp [natDigitsAux] at hd
  | succ f ih =>
    intro q d hd
    cases q with
    | zero => simp [natDigitsAux] at hd
    | succ n =>
      simp only [natDigitsAux, List.mem_cons] at hd
      rcases hd with h | h
      · subst h
        exact Nat.mod_lt _ (by norm_num)
      · exact ih _ _ h

theorem digitsVal_natDigitsAux : ∀ fuel q : ℕ, q ≤ fuel →
    digitsVal (natDigitsAux fuel q) = q := by
  intro fuel
  induction fuel with
  | zero =>
    intro q hq
    interval_cases q
    rfl
  | succ f ih =>
    intro q hq
    cases q with
    | zero => rfl
    | succ n =>
      have h1 : (n + 1) / 10 ≤ f := by
        have := Nat.div_lt_self (Nat.succ_pos n) (by norm_num : 1 < 10)
        omega
      simp only [natDigitsAux, digitsVal, ih _ h1]
      omega

theorem foldr_digits (l : List ℕ) (h : ∀ d ∈ l, d < 10) :
    l.foldr (fun x a => 10 * a + charVal (Nat.digitChar x)) 0 = digitsVal l := by
  induction l with
  | nil => rfl
  | cons d t ih =>
    simp only [List.foldr_cons, digitsVal]
    rw [ih (fun x hx => h x (List.mem_cons_of_mem _ hx)),
      charVal_digitChar (h d (List.mem_cons_self d t))]
    omega

theorem parseNatChars_natDecChars (q : ℕ) : parseNatChars (natDecChars q) = q := by
  unfold natDecChars
  by_cases hq : q = 0
  · subst hq
    rfl
  · simp only [hq, if_false]
    unfold parseNatChars
    rw [List.foldl_map, List.foldl_reverse, foldr_digits _ (natDigitsAux_lt q q)]
    exact digitsVal_natDigitsAux q q le_rfl

theorem natDecChars_digits (q : ℕ) : ∀ c ∈ natDecChars q, c.isDigit = true := by
  unfold natDecChars
  by_cases hq : q = 0
  · simp [hq]
  · simp only [hq, if_false]
    intro c hc
    obtain ⟨d, hd, rfl⟩ := List.mem_map.mp hc
    exact isDigit_digitChar (natDigitsAux_lt q q d (List.mem_reverse.mp hd))

theorem natDecChars_ne_nil (q : ℕ) : natDecChars q ≠ [] := by
  unfold natDecChars
  by_cases hq : q = 0
  · simp [hq]
  · simp only [hq, if_false]
    cases q with
    | zero => exact absurd rfl hq
    | succ n => simp [natDigitsAux]

theorem takeWhile_until_dot (l1 l2 : List Char) (h : ∀ c ∈ l1, (c != '.') = true) :
    (l1 ++ '.' :: l2).takeWhile (fun c => c != '.') = l1 := by
  induction l1 with
  | nil => simp [List.takeWhile]
  | cons c t ih =>
    simp only [List.cons_append, List.takeWhile_cons, h c (List.mem_cons_self c t),
      if_true]
    rw [ih (fun x hx => h x (List.mem_cons_of_mem _ hx))]

theorem dropWhile_until_dot (l1 l2 : List Char) (h : ∀ c ∈ l1, (c != '.') = true) :
    (l1 ++ '.' :: l2).dropWhile (fun c => c != '.') = '.' :: l2 := by
  induction l1 with
  | nil => simp [List.dropWhile]
  | cons c t ih =>
    simp only [List.cons_append, List.dropWhile_cons, h c (List.mem_cons_self c t),
      if_true]
    exact ih (fun x hx => h x (List.mem_cons_of_mem _ hx))

theorem takeWhile_no_dot (l : List Char) (h : ∀ c ∈ l, (c != '.') = true) :
    l.takeWhile (fun c => c != '.') = l := by
  induction l with
  | nil => rfl
  | cons c t ih =>
    simp only [List.takeWhile_cons, h c (List.mem_cons_self c t), if_true]
    rw [ih (fun x hx => h x (List.mem_cons_of_mem _ hx))]

theorem dropWhile_no_dot (l : List Char) (h : ∀ c ∈ l, (c != '.') = true) :
    l.dropWhile (fun c => c != '.') = [] := by
  induction l with
  | nil => rfl
  | cons c t ih =>
    simp only [List.dropWhile_cons, h c (List.mem_cons_self c t), if_true]
    exact ih (fun x hx => h x (List.mem_cons_of_mem _ hx))

theorem jsRound_natCast (k : ℕ) : jsRound ((k : ℕ) : ℚ) = (k : ℤ) := by
  rw [jsRound_eq_floor, show ((k : ℕ) : ℚ) = ((k : ℤ) : ℚ) by push_cast; ring,
    Int.floor_int_add]
  norm_num

/-- The `parseDecimalRaw` on a pure digit string reads the integer value. -/
theorem parseDecimalRaw_digits_only (l : List Char) (hne : l ≠ [])
    (hdig : ∀ c ∈ l, c.isDigit = true) :
    parseDecimalRaw (String.mk l) = (parseNatChars l : ℚ) := by
  have hnodot : ∀ c ∈ l, (c != '.') = true := fun c hc => isDigit_ne_dot (hdig c hc)
  have hfilter : List.filter (fun c => c.isDigit || c == '.') l = l :=
    List.filter_eq_self.mpr (fun c hc => by simp [hdig c hc])
  unfold parseDecimalRaw sanitizeDecimal
  simp only [show (String.mk l).toList = l from rfl, hfilter,
    takeWhile_no_dot l hnodot, dropWhile_no_dot l hnodot, List.drop_nil,
    List.filter_nil, if_neg hne]
  simp

/-- The `parseDecimalRaw` on `"<digits>.<at most two digits>"` reads whole and
fraction. -/
theorem parseDecimalRaw_digits_dot (l1 l2 : List Char) (hne : l1 ≠ [])
    (h1 : ∀ c ∈ l1, c.isDigit = true) (h2 : ∀ c ∈ l2, c.isDigit = true)
    (hlen : l2.length ≤ 2) (hne2 : l2 ≠ []) :
    parseDecimalRaw (String.mk (l1 ++ '.' :: l2)) =
      (parseNatChars l1 : ℚ) + (parseNatChars l2 : ℚ) / (10 ^ l2.length : ℚ) := by
  have hnodot : ∀ c ∈ l1, (c != '.') = true := fun c hc => isDigit_ne_dot (h1 c hc)
  have hfilter : (l1 ++ '.' :: l2).filter (fun c => c.isDigit || c == '.') =
      l1 ++ '.' :: l2 := by
    apply List.filter_eq_self.mpr
    intro c hc
    rcases List.mem_append.mp hc with h | h
    · simp [h1 c h]
    · rcases List.mem_cons.mp h with h | h
      · simp [h]
      · simp [h2 c h]
  have hfilter2 : List.filter Char.isDigit l2 = l2 :=
    List.filter_eq_self.mpr (fun c hc => h2 c hc)
  unfold parseDecimalRaw sanitizeDecimal
  simp only [show (String.mk (l1 ++ '.' :: l2)).toList = l1 ++ '.' :: l2 from rfl,
    hfilter, takeWhile_until_dot l1 l2 hnodot, dropWhile_until_dot l1 l2 hnodot,
    List.drop_one, List.tail_cons, hfilter2, if_neg hne, if_neg hne2,
    List.take_of_length_le hlen]
  rfl

theorem parseNatChars_singleton (c : Char) : parseNatChars [c] = charVal c := by
  unfold parseNatChars
  simp

theorem parseNatChars_pair (c d : Char) :
    parseNatChars [c, d] = 10 * charVal c + charVal d := by
  unfold parseNatChars
  simp [List.foldl]

/-- The `formatHundredths` with the whole and fraction parts given abstractly. -/
theorem parseDecimalRaw_formatHundredths_qr (q r : ℕ) (hr : r < 100) :
    parseDecimalRaw (String.mk
      (if r = 0 then natDecChars q
        else if r % 10 = 0 then natDecChars q ++ ['.', Nat.digitChar (r / 10)]
        else natDecChars q ++ ['.', Nat.digitChar (r / 10), Nat.digitChar (r % 10)])) =
      ((100 * q + r : ℕ) : ℚ) / 100 := by
  have hdigq := natDecChars_digits q
  have hneq := natDecChars_ne_nil q
  by_cases h0 : r = 0
  · subst h0
    rw [if_pos rfl, parseDecimalRaw_digits_only _ hneq hdigq, parseNatChars_natDecChars]
    push_cast
    ring
  · by_cases h10 : r % 10 = 0
    · obtain ⟨d, rfl⟩ : ∃ d, r = 10 * d := ⟨r / 10, by omega⟩
      have hd10 : 10 * d / 10 = d := by omega
      have hd : d < 10 := by omega
      rw [if_neg h0, if_pos h10, hd10,
        parseDecimalRaw_digits_dot _ _ hneq hdigq
          (by
            intro c hc
            simp only [List.mem_singleton] at hc
            subst hc
            exact isDigit_digitChar hd)
          (by simp) (by simp),
        parseNatChars_natDecChars, parseNatChars_singleton, charVal_digitChar hd]
      push_cast
      norm_num
      ring
    · have hd1 : r / 10 < 10 := by omega
      have hd2 : r % 10 < 10 := by omega
      rw [if_neg h0, if_neg h10,
        parseDecimalRaw_digits_dot _ _ hneq hdigq
          (by
            intro c hc
            simp only [List.mem_cons, List.mem_singleton, List.not_mem_nil, or_false] at hc
            rcases hc with hc | hc <;>
              (subst hc; first | exact isDigit_digitChar hd1 | exact isDigit_digitChar hd2))
          (by simp) (by simp),
        parseNatChars_natDecChars, parseNatChars_pair, charVal_digitChar hd1,
        charVal_digitChar hd2]
      have hsum : 10 * (r / 10) + r % 10 = r := by omega
      rw [hsum]
      push_cast
      norm_num
      ring

/-- Parsing the trimmed 2-decimal rendering of `n/100` recovers `n/100`. -/
theorem parseDecimalRaw_formatHundredths (n : ℕ) :
    parseDecimalRaw (String.mk (formatHundredths n)) = (n : ℚ) / 100 := by
  have h := parseDecimalRaw_formatHundredths_qr (n / 100) (n % 100)
    (Nat.mod_lt _ (by norm_num))
  rw [show 100 * (n / 100) + n % 100 = n from by omega] at h
  simpa only [formatHundredths] using h

/-- The `formatNumberSmart` on a canonical 2-decimal value `n/100` renders the
trimmed hundredths string. -/
theorem formatNumberSmart_nat_div (n : ℕ) :
    formatNumberSmart ((n : ℚ) / 100) = String.mk (formatHundredths n) := by
  unfold formatNumberSmart
  rw [div_mul_cancel₀ _ (by norm_num : (100 : ℚ) ≠ 0), jsRound_natCast]
  simp

theorem parseDecimalRaw_nonneg (s : String) : 0 ≤ parseDecimalRaw s := by
  simp only [parseDecimalRaw, decCharsToRat]
  split
  · positivity
  · positivity

/-- Round-tripping the trimmed rendering of `n/100` through `parseDecimal2`
yields `max min (n/100)`. -/
theorem parseDecimal2_format_nat (n : ℕ) (m : ℚ) :
    parseDecimal2 (String.mk (formatHundredths n)) m = max m ((n : ℚ) / 100) := by
  unfold parseDecimal2
  rw [parseDecimalRaw_formatHundredths, div_mul_cancel₀ _ (by norm_num : (100 : ℚ) ≠ 0),
    jsRound_natCast]
  simp [Int.cast_natCast]

/-- The `parseDecimal2` always produces `max min (n/100)` for a natural `n`. -/
theorem parseDecimal2_eq_max (s : String) (m : ℚ) :
    ∃ n : ℕ, parseDecimal2 s m = max m ((n : ℚ) / 100) := by
  have h0 : 0 ≤ jsRound (parseDecimalRaw s * 100) := by
    rw [jsRound_eq_floor]
    apply Int.floor_nonneg.mpr
    have := parseDecimalRaw_nonneg s
    have h100 : 0 ≤ parseDecimalRaw s * 100 := by positivity
    linarith
  have hcast : (((jsRound (parseDecimalRaw s * 100)).toNat : ℕ) : ℚ) =
      ((jsRound (parseDecimalRaw s * 100) : ℤ) : ℚ) := by
    exact_mod_cast congrArg (fun z : ℤ => (z : ℚ)) (Int.toNat_of_nonneg h0)
  refine ⟨(jsRound (parseDecimalRaw s * 100)).toNat, ?_⟩
  unfold parseDecimal2
  rw [hcast]

/-- C8 (amended): `parseDecimal2` is always at least the floor `min`, and
is idempotent through the display formatter provided the floor itself is a
2-decimal value (`roundTo2 min = min`). -/
theorem parseDecimal_ge_min_and_idempotent (s : String) (m : ℚ) :
    m ≤ parseDecimal2 s m ∧
    (roundTo2 m = m →
      parseDecimal2 (formatNumberSmart (parseDecimal2 s m)) m = parseDecimal2 s m) := by
  obtain ⟨n, hn⟩ := parseDecimal2_eq_max s m
  constructor
  · rw [hn]
    exact le_max_left _ _
  · intro hm
    rw [hn]
    rcases le_total m ((n : ℚ) / 100) with h | h
    · rw [max_eq_right h, formatNumberSmart_nat_div, parseDecimal2_format_nat,
        max_eq_right h]
    · rw [max_eq_left h]
      have hm0 : 0 ≤ m := le_trans (by positivity) h
      have hk0 : 0 ≤ jsRound (m * 100) := by
        rw [jsRound_eq_floor]
        apply Int.floor_nonneg.mpr
        have : (0 : ℚ) ≤ m * 100 := by positivity
        linarith
      have hcast : (((jsRound (m * 100)).toNat : ℕ) : ℚ) = ((jsRound (m * 100) : ℤ) : ℚ) := by
        exact_mod_cast congrArg (fun z : ℤ => (z : ℚ)) (Int.toNat_of_nonneg hk0)
      have hmk : m = (((jsRound (m * 100)).toNat : ℕ) : ℚ) / 100 := by
        rw [hcast]
        conv_lhs => rw [← hm]
        rfl
      obtain ⟨k, hk⟩ : ∃ k : ℕ, m = (k : ℚ) / 100 := ⟨(jsRound (m * 100)).toNat, hmk⟩
      rw [hk, formatNumberSmart_nat_div, parseDecimal2_format_nat, max_self]

section ConcreteEvaluationTwo

attribute [local semireducible] Rat.add Rat.mul Rat.sub Rat.inv Rat.ofScientific

/-- C8 witness at `s = "3.7"`, `min = 0`. -/
theorem parseDecimal_ge_min_idempotent_witness :
    (0 : ℚ) ≤ parseDecimal2 "3.7" 0 ∧
    parseDecimal2 (formatNumberSmart (parseDecimal2 "3.7" 0)) 0 = parseDecimal2 "3.7" 0 :=
  ⟨(parseDecimal_ge_min_and_idempotent "3.7" 0).1,
    (parseDecimal_ge_min_and_idempotent "3.7" 0).2 (by decide)⟩

/-- C8 counterexample: with the floor 1/8 (not a 2-decimal value) the
clamped result 0.125 formats to `"0.13"`, which re-parses to 0.13 ≠ 0.125,
so the claimed unrestricted idempotence fails. -/
theorem parseDecimal_idempotence_counterexample :
    parseDecimal2 (formatNumberSmart (parseDecimal2 "" (1 / 8))) (1 / 8) ≠
      parseDecimal2 "" (1 / 8) := by decide

end ConcreteEvaluationTwo

end Cal
